import Mathlib

/-!
Shallow embedding of the nested-set maintenance library in `nested_set.go`
(package `nestedset`).  The relational table is modelled as a `List NodeItem`;
each SQL statement issued by the Go code becomes an explicit transformation of
that list, in the order the code issues it.

Faithfulness notes, keyed to the source:
* `parseNode` reads the node's coordinates from the caller-supplied record by
  reflection; it does NOT query storage.  Records are therefore explicit
  `NodeItem` arguments of the operations here.
* In `MoveTo` the transaction handle is rebuilt with `db.Table(...)` (line 200),
  which discards the scope `WHERE` clause that `parseNode` attached; hence none
  of the move-path updates below filter by scope.  `Create` keeps the scoped
  handle for its reads and range shifts, so those do filter by scope.
* `sql.NullInt64` becomes `Option Int`; machine integers become `Int` (the
  coordinates are small; the Go code has no intended overflow behaviour).
-/

namespace NestedSet

/-- One row of the table, mirroring the Go struct `nodeItem`
(`ID`, `ParentID`, `Depth`, `Rgt`, `Lft`, `ChildrenCount`) plus the scope
column that `parseNode` turns into a `WHERE` clause. -/
structure NodeItem where
  id : Int
  parentId : Option Int
  depth : Int
  rgt : Int
  lft : Int
  childrenCount : Int
  scope : Int
deriving Repr, DecidableEq

/-- Go constant `MoveDirectionLeft = -1`. -/
def MoveDirectionLeft : Int := -1

/-- Go constant `MoveDirectionRight = 1`. -/
def MoveDirectionRight : Int := 1

/-- Go constant `MoveDirectionInner = 0`. -/
def MoveDirectionInner : Int := 0

/-- The read `SELECT rgt ... ORDER BY rgt DESC LIMIT 1` that `Create` performs
on the scoped handle: the maximum `rgt` within the record's scope, `none` when
the scope holds no row (gorm returns `ErrRecordNotFound`). -/
def lastMaxRgt (s : List NodeItem) (scope : Int) : Option Int :=
  ((s.filter (fun n => n.scope == scope)).map (fun n => n.rgt)).max?

/-- The Go `Create(db, source, parent)` function.  `source` is the parsed
caller record; `parent = none` models the Go call with a nil parent.
With a parent it issues, in order:
`UPDATE ... SET rgt = rgt + 2 WHERE rgt >= lft` (scoped),
`UPDATE ... SET lft = lft + 2 WHERE lft > lft` (scoped),
`UPDATE ... SET children_count = children_count + 1 WHERE id = parent.id`
(keyed by primary key), then inserts the new row. -/
def create (s : List NodeItem) (source : NodeItem) (parent : Option NodeItem) :
    List NodeItem :=
  match parent with
  | none =>
    let setToLft : Int :=
      match lastMaxRgt s source.scope with
      | some m => m + 1
      | none => 1
    s ++ [{ source with lft := setToLft, rgt := setToLft + 1, depth := 0 }]
  | some targetParent =>
    let setToLft := targetParent.rgt
    let setToRgt := targetParent.rgt + 1
    let setDepth := targetParent.depth + 1
    let s1 := s.map (fun n =>
      if n.scope == source.scope && setToLft ≤ n.rgt then
        { n with rgt := n.rgt + 2 } else n)
    let s2 := s1.map (fun n =>
      if n.scope == source.scope && setToLft < n.lft then
        { n with lft := n.lft + 2 } else n)
    let s3 := s2.map (fun n =>
      if n.id == targetParent.id then
        { n with childrenCount := n.childrenCount + 1 } else n)
    s3 ++ [{ source with lft := setToLft, rgt := setToRgt, depth := setDepth }]

/-- Effect of the Go `moveAffected` UPDATE on one row: the row is touched iff
`(lft BETWEEN gte AND lte) OR (rgt BETWEEN gte AND lte)`, and then
`lft` becomes `CASE WHEN lft >= gte THEN lft + step ELSE lft END`,
`rgt` becomes `CASE WHEN rgt <= lte THEN rgt + step ELSE rgt END`
(both CASE expressions read the pre-update row, as SQL does). -/
def moveAffectedNode (gte lte step : Int) (n : NodeItem) : NodeItem :=
  if (gte ≤ n.lft ∧ n.lft ≤ lte) ∨ (gte ≤ n.rgt ∧ n.rgt ≤ lte) then
    { n with lft := if gte ≤ n.lft then n.lft + step else n.lft,
             rgt := if n.rgt ≤ lte then n.rgt + step else n.rgt }
  else n

/-- The Go `moveAffected` bulk UPDATE over the (unscoped) move transaction. -/
def moveAffected (gte lte step : Int) (s : List NodeItem) : List NodeItem :=
  s.map (moveAffectedNode gte lte step)

/-- The Go `moveTarget`: when `targetIds` is nonempty, one UPDATE adds `step`
to `lft` and `rgt` and `depthChange` to `depth` of every row whose id is in
`targetIds`; then a second UPDATE sets `parent_id = newParentID` on the row
with id `targetID`. -/
def moveTarget (targetID : Int) (targetIds : List Int) (step depthChange : Int)
    (newParentID : Option Int) (s : List NodeItem) : List NodeItem :=
  let s1 :=
    if targetIds.isEmpty then s
    else s.map (fun n =>
      if targetIds.contains n.id then
        { n with lft := n.lft + step, rgt := n.rgt + step,
                 depth := n.depth + depthChange }
      else n)
  s1.map (fun n => if n.id == targetID then { n with parentId := newParentID } else n)

/-- The `SELECT COUNT(*) WHERE parent_id = pid` read used by
`syncChildrenCount`. -/
def countKids (pid : Int) (s : List NodeItem) : Nat :=
  (s.filter (fun n => n.parentId == some pid)).length

/-- The `UPDATE ... SET children_count = c WHERE id = pid` write used by
`syncChildrenCount`. -/
def writeCC (pid : Int) (c : Int) (s : List NodeItem) : List NodeItem :=
  s.map (fun n => if n.id == pid then { n with childrenCount := c } else n)

/-- The Go `syncChildrenCount`: for the old parent (when present) count its
children and write the count, then the same for the new parent (counting on
the state after the first write, as the code does). -/
def syncChildrenCount (oldParentID newParentID : Option Int)
    (s : List NodeItem) : List NodeItem :=
  let s1 := match oldParentID with
    | some pid => writeCC pid (countKids pid s) s
    | none => s
  match newParentID with
  | some pid => writeCC pid (countKids pid s1) s1
  | none => s1

/-- The Go `moveToRightOfPosition`.  `targetNode` is the parsed caller record
of the moving node; the Pluck of `targetIds` (rows with
`lft >= record.lft AND rgt <= record.rgt`) happens before the branch on
`moveStep`, and the whole transaction is unscoped (see header note on
`MoveTo` line 200). -/
def moveToRightOfPosition (targetNode : NodeItem) (position depthChange : Int)
    (newParentID : Option Int) (s : List NodeItem) : List NodeItem :=
  let targetIds : List Int :=
    (s.filter (fun n =>
      decide (targetNode.lft ≤ n.lft ∧ n.rgt ≤ targetNode.rgt))).map (fun n => n.id)
  let targetWidth := targetNode.rgt - targetNode.lft + 1
  let moveStep := position - targetNode.lft + 1
  if moveStep < 0 then
    let s1 := moveAffected (position + 1) (targetNode.lft - 1) targetWidth s
    let s2 := moveTarget targetNode.id targetIds moveStep depthChange newParentID s1
    syncChildrenCount targetNode.parentId newParentID s2
  else if moveStep > 0 then
    let s1 := moveAffected (targetNode.rgt + 1) position (-targetWidth) s
    let s2 := moveTarget targetNode.id targetIds (moveStep - targetWidth)
      depthChange newParentID s1
    syncChildrenCount targetNode.parentId newParentID s2
  else
    s

/-- The Go `MoveTo(db, node, to, direction)` on parsed records.  The direction
is an `Int` exactly as `MoveDirection` is an `int` in Go, and the dispatch
mirrors the source's if-chain (any value other than `-1`/`1` falls into the
inner branch). -/
def moveTo (s : List NodeItem) (node toNode : NodeItem) (direction : Int) :
    List NodeItem :=
  if direction = MoveDirectionLeft ∨ direction = MoveDirectionRight then
    let newParentID := toNode.parentId
    let depthChange := toNode.depth - node.depth
    let right := if direction = MoveDirectionLeft then toNode.lft - 1 else toNode.rgt
    moveToRightOfPosition node right depthChange newParentID s
  else
    moveToRightOfPosition node toNode.lft (toNode.depth + 1 - node.depth)
      (some toNode.id) s

/-- Result of a public operation together with the number of data-store
interactions (reads and writes of rows) it performed.  `Except.error ()` is
the `MappingError` path: `stmt.Parse` failed on a caller record, the Go
function returns before touching any row. -/
def OpResult := Except Unit (List NodeItem) × Nat

/-- Number of store interactions a successful `moveToRightOfPosition`
performs: the Pluck read, then (unless `moveStep = 0`) the `moveAffected`
UPDATE, one or two `moveTarget` UPDATEs, and a count read plus an UPDATE for
each present parent reference in `syncChildrenCount`. -/
def moveStoreOps (targetNode : NodeItem) (position : Int)
    (newParentID : Option Int) (s : List NodeItem) : Nat :=
  let targetIds : List Int :=
    (s.filter (fun n =>
      decide (targetNode.lft ≤ n.lft ∧ n.rgt ≤ targetNode.rgt))).map (fun n => n.id)
  1 + (if position - targetNode.lft + 1 = 0 then 0 else
    1 + (if targetIds.isEmpty then 1 else 2)
      + (if targetNode.parentId.isSome then 2 else 0)
      + (if newParentID.isSome then 2 else 0))

/-- The Go `MoveTo` including its `parseNode` error paths: a `none` record is
one that `stmt.Parse` rejects (not a valid model instance).  Both records are
parsed before any store access, so either failure yields `MappingError` with
zero store interactions. -/
def moveToE (s : List NodeItem) (node toNode : Option NodeItem)
    (direction : Int) : OpResult :=
  match node with
  | none => (Except.error (), 0)
  | some n =>
    match toNode with
    | none => (Except.error (), 0)
    | some t =>
      let pos : Int :=
        if direction = MoveDirectionLeft ∨ direction = MoveDirectionRight then
          (if direction = MoveDirectionLeft then t.lft - 1 else t.rgt)
        else t.lft
      let np : Option Int :=
        if direction = MoveDirectionLeft ∨ direction = MoveDirectionRight then
          t.parentId
        else some t.id
      (Except.ok (moveTo s n t direction), moveStoreOps n pos np s)

/-- The Go `Create` including its `parseNode` error paths.  `source = none`:
the source record fails to parse (error before the parent branch).
`parent = some none`: a non-nil parent record that fails to parse; the parse
happens before any store access in that branch.  `parent = none` is the nil
parent (root insertion: one read of the scoped maximum `rgt` plus the
insert); a parsed parent costs the three UPDATEs plus the insert. -/
def createE (s : List NodeItem) (source : Option NodeItem)
    (parent : Option (Option NodeItem)) : OpResult :=
  match source with
  | none => (Except.error (), 0)
  | some src =>
    match parent with
    | none => (Except.ok (create s src none), 2)
    | some none => (Except.error (), 0)
    | some (some p) => (Except.ok (create s src (some p)), 4)

/-- Modelled from the spec: the RangeShifter contract of section 4.1, written
from the spec's words for the refinement comparison with `moveAffectedNode`:
if `lft` lies in `[gte, lte]` add `step` to `lft`; independently, if `rgt`
lies in `[gte, lte]` add `step` to `rgt`. -/
def rangeShifterNode (gte lte step : Int) (n : NodeItem) : NodeItem :=
  { n with
    lft := if gte ≤ n.lft ∧ n.lft ≤ lte then n.lft + step else n.lft,
    rgt := if gte ≤ n.rgt ∧ n.rgt ≤ lte then n.rgt + step else n.rgt }

/-- The coordinate projection (left bound, right bound, depth) used to state
what the relocation does to every row's coordinates. -/
def nodeCoords (n : NodeItem) : Int × Int × Int := (n.lft, n.rgt, n.depth)

/-- Invariant 1 of the spec: every node has `left < right`. -/
def invariant1 (s : List NodeItem) : Bool :=
  s.all (fun n => n.lft < n.rgt)

/-- Interval of `b` strictly contained in the interval of `a`. -/
def strictlyInside (b a : NodeItem) : Bool :=
  a.lft < b.lft && b.rgt < a.rgt

/-- Invariant 2 of the spec: intervals of two distinct nodes of one scope are
disjoint or one strictly contains the other. -/
def invariant2 (s : List NodeItem) : Bool :=
  s.all (fun a => s.all (fun b =>
    a.scope != b.scope || a.id == b.id ||
    (a.rgt < b.lft || b.rgt < a.lft) ||
    strictlyInside b a || strictlyInside a b))

/-- Descendants of `a`: nodes of the same scope whose interval is strictly
inside the interval of `a` (the nested-set reading of descendant). -/
def descendantCount (s : List NodeItem) (a : NodeItem) : Nat :=
  (s.filter (fun b => b.scope == a.scope && strictlyInside b a)).length

/-- Invariant 3 of the spec: `right - left = 2 * descendants + 1`. -/
def invariant3 (s : List NodeItem) : Bool :=
  s.all (fun a => a.rgt - a.lft == 2 * (descendantCount s a : Int) + 1)

/-- The destination position `MoveTo` computes from the reference record and
the direction (source lines 204-216): `toNode.lft - 1` for left,
`toNode.rgt` for right, `toNode.lft` for inner. -/
def movePosition (toNode : NodeItem) (direction : Int) : Int :=
  if direction = MoveDirectionLeft ∨ direction = MoveDirectionRight then
    (if direction = MoveDirectionLeft then toNode.lft - 1 else toNode.rgt)
  else toNode.lft

/-- The depth change `MoveTo` computes from the two records and the
direction. -/
def moveDepthChange (node toNode : NodeItem) (direction : Int) : Int :=
  if direction = MoveDirectionLeft ∨ direction = MoveDirectionRight then
    toNode.depth - node.depth
  else toNode.depth + 1 - node.depth

/-- The new parent id `MoveTo` computes from the reference record and the
direction. -/
def moveNewParent (toNode : NodeItem) (direction : Int) : Option Int :=
  if direction = MoveDirectionLeft ∨ direction = MoveDirectionRight then
    toNode.parentId
  else some toNode.id

/-! Concrete states used as failing inputs, counterexamples and witnesses.
All of them satisfy the nested-set invariants scope by scope. -/

/-- Scope-1 root occupying the interval (1,2). -/
def c1A : NodeItem :=
  { id := 1, parentId := none, depth := 0, rgt := 2, lft := 1,
    childrenCount := 0, scope := 1 }

/-- Scope-1 root occupying the interval (3,4). -/
def c1B : NodeItem :=
  { id := 2, parentId := none, depth := 0, rgt := 4, lft := 3,
    childrenCount := 0, scope := 1 }

/-- Scope-2 root occupying the interval (1,4) with one child. -/
def c1R : NodeItem :=
  { id := 3, parentId := none, depth := 0, rgt := 4, lft := 1,
    childrenCount := 1, scope := 2 }

/-- Scope-2 child of `c1R` occupying the interval (2,3). -/
def c1C : NodeItem :=
  { id := 4, parentId := some 3, depth := 1, rgt := 3, lft := 2,
    childrenCount := 0, scope := 2 }

/-- Two-scope table: two scope-1 roots, plus a scope-2 root with a child. -/
def c1State : List NodeItem := [c1A, c1B, c1R, c1C]

/-- Scope-2 root occupying the interval (1,2). -/
def c6X : NodeItem :=
  { id := 5, parentId := none, depth := 0, rgt := 2, lft := 1,
    childrenCount := 0, scope := 2 }

/-- Two-scope table: two scope-1 roots and one scope-2 root. -/
def c6State : List NodeItem := [c1A, c1B, c6X]

/-- Scope-0 root occupying the interval (1,2). -/
def c7A : NodeItem :=
  { id := 1, parentId := none, depth := 0, rgt := 2, lft := 1,
    childrenCount := 0, scope := 0 }

/-- Scope-0 root occupying the interval (3,4). -/
def c7B : NodeItem :=
  { id := 2, parentId := none, depth := 0, rgt := 4, lft := 3,
    childrenCount := 0, scope := 0 }

/-- One-scope table with two roots. -/
def c7State : List NodeItem := [c7A, c7B]

/-- Stored parent row: a root occupying the interval (1,2). -/
def c8Parent : NodeItem :=
  { id := 1, parentId := none, depth := 0, rgt := 2, lft := 1,
    childrenCount := 0, scope := 0 }

/-- Stale caller record for `c8Parent`: same id, but right bound 10 and
depth 5 instead of the stored right bound 2 and depth 0. -/
def c8Stale : NodeItem := { c8Parent with rgt := 10, depth := 5 }

/-- Caller record for the node being created under `c8Parent`. -/
def c8Src : NodeItem :=
  { id := 7, parentId := some 1, depth := 0, rgt := 0, lft := 0,
    childrenCount := 0, scope := 0 }

/-- Table holding only the stored parent row. -/
def c8Store : List NodeItem := [c8Parent]

/-- Witness row for the refinement equivalence: interval (2,5), so that the
shift window (1,3) holds its left bound but not its right bound. -/
def c5Node : NodeItem :=
  { id := 9, parentId := none, depth := 0, rgt := 5, lft := 2,
    childrenCount := 0, scope := 0 }

/-- Scope-0 root occupying (1,2), first root of the witness state for the
relocation case analysis. -/
def w2A : NodeItem :=
  { id := 11, parentId := none, depth := 0, rgt := 2, lft := 1,
    childrenCount := 0, scope := 0 }

/-- Scope-0 root occupying (3,4), the node the witness relocation moves. -/
def w2B : NodeItem :=
  { id := 12, parentId := none, depth := 0, rgt := 4, lft := 3,
    childrenCount := 0, scope := 0 }

/-- Witness state for the relocation case analysis. -/
def w2State : List NodeItem := [w2A, w2B]

/-! Helper lemmas shared by the claim theorems. -/

theorem moveAffectedNode_id (gte lte step : Int) (n : NodeItem) :
    (moveAffectedNode gte lte step n).id = n.id := by
  unfold moveAffectedNode
  split_ifs <;> rfl

theorem moveAffectedNode_eq_rangeShifter (gte lte step : Int) (n : NodeItem)
    (h : n.lft ≤ n.rgt) :
    moveAffectedNode gte lte step n = rangeShifterNode gte lte step n := by
  rcases n with ⟨i, p, d, r, lf, c, sc⟩
  simp only [moveAffectedNode, rangeShifterNode] at *
  split_ifs <;> simp_all <;> omega

theorem nodeCoords_writeCC (pid c : Int) (s : List NodeItem) :
    (writeCC pid c s).map nodeCoords = s.map nodeCoords := by
  simp only [writeCC, List.map_map]
  apply List.map_congr_left
  intro n _
  by_cases h : (n.id == pid) = true <;> simp [Function.comp, h, nodeCoords]

theorem nodeCoords_sync (oldP newP : Option Int) (s : List NodeItem) :
    (syncChildrenCount oldP newP s).map nodeCoords = s.map nodeCoords := by
  unfold syncChildrenCount
  cases oldP <;> cases newP <;> simp [nodeCoords_writeCC]

theorem nodeCoords_moveTarget (tid : Int) (tids : List Int) (step dc : Int)
    (np : Option Int) (s : List NodeItem) :
    (moveTarget tid tids step dc np s).map nodeCoords =
      s.map (fun n => if tids.contains n.id then
        (n.lft + step, n.rgt + step, n.depth + dc) else nodeCoords n) := by
  unfold moveTarget
  by_cases he : tids.isEmpty
  · have : tids = [] := by simpa [List.isEmpty_iff] using he
    subst this
    simp only [List.isEmpty_nil, if_true, List.map_map]
    apply List.map_congr_left
    intro n _
    by_cases h : (n.id == tid) = true <;> simp [Function.comp, h, nodeCoords]
  · rw [if_neg he]
    simp only [List.map_map]
    apply List.map_congr_left
    intro n _
    by_cases hc : n.id ∈ tids
    · by_cases h : (n.id == tid) = true <;>
        simp [Function.comp, h, hc, nodeCoords]
    · by_cases h : (n.id == tid) = true <;>
        simp [Function.comp, h, hc, nodeCoords]

theorem mem_targetIds_iff (s : List NodeItem) (t : NodeItem)
    (hids : (s.map (fun n => n.id)).Nodup) (n : NodeItem) (hn : n ∈ s) :
    ((s.filter (fun m =>
        decide (t.lft ≤ m.lft ∧ m.rgt ≤ t.rgt))).map (fun m => m.id)).contains n.id
      = true ↔ (t.lft ≤ n.lft ∧ n.rgt ≤ t.rgt) := by
  constructor
  · intro hc
    have hmem : n.id ∈ (s.filter (fun m =>
        decide (t.lft ≤ m.lft ∧ m.rgt ≤ t.rgt))).map (fun m => m.id) := by
      simpa using hc
    rcases List.mem_map.1 hmem with ⟨m, hm, hmid⟩
    rcases List.mem_filter.1 hm with ⟨hms, hmp⟩
    have hmn : m = n := List.inj_on_of_nodup_map hids hms hn hmid
    subst hmn
    simpa using hmp
  · intro hp
    have : n ∈ s.filter (fun m => decide (t.lft ≤ m.lft ∧ m.rgt ≤ t.rgt)) :=
      List.mem_filter.2 ⟨hn, by simpa using hp⟩
    simpa using List.mem_map.2 ⟨n, this, rfl⟩

theorem getLast?_append_singleton (l : List NodeItem) (a : NodeItem) :
    (l ++ [a]).getLast? = some a := by
  simp

theorem moveToRightOfPosition_zero (t : NodeItem) (pos dc : Int)
    (np : Option Int) (s : List NodeItem) (h : pos - t.lft + 1 = 0) :
    moveToRightOfPosition t pos dc np s = s := by
  simp only [moveToRightOfPosition]
  rw [if_neg (by omega), if_neg (by omega)]

/-! Claim theorems. -/

/-- C1: the claim asserts that after any sequence of `Create`/`Move` calls
from a state satisfying the nested-set invariants, every scope still
satisfies them.  The code violates this: `MoveTo` rebuilds its transaction
handle without the scope clause, so a single `Move` of the scope-1 root
`c1B` in front of `c1A` shifts the bounds of the scope-2 rows as well and
leaves the scope-2 child with `left = 4 > right = 3`, breaking invariant 1.
The initial state satisfies all three claimed invariants. -/
theorem c1_cross_scope_move_breaks_invariants :
    (invariant1 c1State && invariant2 c1State && invariant3 c1State) = true
    ∧ (moveTo c1State c1B c1A MoveDirectionLeft).map
        (fun n => (n.id, n.scope, n.lft, n.rgt))
        = [(1, 1, 3, 4), (2, 1, 1, 2), (3, 2, 3, 4), (4, 2, 4, 3)]
    ∧ invariant1 (moveTo c1State c1B c1A MoveDirectionLeft) = false := by
  refine ⟨by decide, by decide, by decide⟩

/-- C3: for every state and pair of records, the triple
(new parent id, depth change, destination position) computed by `MoveTo` is
`(reference.parentId, reference.depth - node.depth, reference.left - 1)` for
Before, `(reference.parentId, reference.depth - node.depth, reference.right)`
for After, and `(reference.id, reference.depth + 1 - node.depth,
reference.left)` for Inner. -/
theorem c3_direction_triples (s : List NodeItem) (node toNode : NodeItem) :
    moveTo s node toNode MoveDirectionLeft =
      moveToRightOfPosition node (toNode.lft - 1) (toNode.depth - node.depth)
        toNode.parentId s
    ∧ moveTo s node toNode MoveDirectionRight =
      moveToRightOfPosition node toNode.rgt (toNode.depth - node.depth)
        toNode.parentId s
    ∧ moveTo s node toNode MoveDirectionInner =
      moveToRightOfPosition node toNode.lft (toNode.depth + 1 - node.depth)
        (some toNode.id) s := by
  refine ⟨?_, ?_, ?_⟩ <;>
    norm_num [moveTo, MoveDirectionLeft, MoveDirectionRight, MoveDirectionInner]

/-- C5: for every node with `left < right`, the combined affected-range
UPDATE (one OR predicate with per-column CASE clamping) equals the spec's
pair of independent conditional bound shifts. -/
theorem c5_combined_update_equals_independent_shifts (gte lte step : Int)
    (n : NodeItem) (h : n.lft < n.rgt) :
    moveAffectedNode gte lte step n = rangeShifterNode gte lte step n :=
  moveAffectedNode_eq_rangeShifter gte lte step n (le_of_lt h)

/-- Witness for C5 at a node whose interval straddles the window boundary:
interval (2,5), window [1,3]: only the left bound is shifted. -/
theorem c5_combined_update_equals_independent_shifts_witness :
    c5Node.lft < c5Node.rgt
    ∧ moveAffectedNode 1 3 10 c5Node = rangeShifterNode 1 3 10 c5Node :=
  ⟨by decide,
    c5_combined_update_equals_independent_shifts 1 3 10 c5Node (by decide)⟩

/-- C6: the claim asserts that a `Move` on a scope-1 node leaves every node
of every other scope unchanged.  The code drops the scope predicate on the
move path, so moving the scope-1 root `c1B` in front of `c1A` shifts the
scope-2 root `c6X` from (1,2) to (3,4). -/
theorem c6_move_mutates_foreign_scope :
    c1B.scope = 1 ∧ c1A.scope = 1 ∧ c6X.scope = 2
    ∧ (c6X.lft, c6X.rgt) = (1, 2)
    ∧ (moveTo c6State c1B c1A MoveDirectionLeft).map
        (fun n => (n.id, n.scope, n.lft, n.rgt))
        = [(1, 1, 3, 4), (2, 1, 1, 2), (5, 2, 3, 4)] := by
  refine ⟨rfl, rfl, rfl, rfl, by decide⟩

/-- C7 counterexample: after moving `c7B` in front of `c7A` (a successful
call that swaps the two intervals), repeating the identical call does not
leave the state unchanged: `MoveTo` re-reads the coordinates from the
caller's records, which still carry the pre-move values, so the second call
swaps the rows back. -/
theorem c7_second_move_not_noop :
    (moveTo c7State c7B c7A MoveDirectionLeft).map nodeCoords
        = [(3, 4, 0), (1, 2, 0)]
    ∧ (moveTo (moveTo c7State c7B c7A MoveDirectionLeft) c7B c7A
        MoveDirectionLeft).map nodeCoords = [(1, 2, 0), (3, 4, 0)]
    ∧ moveTo (moveTo c7State c7B c7A MoveDirectionLeft) c7B c7A
        MoveDirectionLeft
      ≠ moveTo c7State c7B c7A MoveDirectionLeft := by
  refine ⟨by decide, by decide, by decide⟩

/-- C7 amended: a repeated `Move` call is a no-op exactly when the computed
`moveStep` is 0, i.e. when the call was already a no-op; then both the first
and the second identical call leave the state unchanged.  (When the first
call actually relocates the subtree, the second call re-applies the shift
arithmetic with the stale record coordinates, as the counterexample
shows.) -/
theorem c7_zero_step_move_and_repeat_are_noops (s : List NodeItem)
    (node toNode : NodeItem) (direction : Int)
    (h : movePosition toNode direction - node.lft + 1 = 0) :
    moveTo s node toNode direction = s
    ∧ moveTo (moveTo s node toNode direction) node toNode direction
        = moveTo s node toNode direction := by
  have h1 : ∀ s' : List NodeItem, moveTo s' node toNode direction = s' := by
    intro s'
    unfold moveTo
    by_cases hd : direction = MoveDirectionLeft ∨ direction = MoveDirectionRight
    · rw [if_pos hd]
      by_cases hl : direction = MoveDirectionLeft
      · have hp : movePosition toNode direction = toNode.lft - 1 := by
          simp [movePosition, hd, hl]
        rw [hp] at h
        simp only [if_pos hl]
        exact moveToRightOfPosition_zero _ _ _ _ _ (by omega)
      · have hr : direction = MoveDirectionRight := hd.resolve_left hl
        have hp : movePosition toNode direction = toNode.rgt := by
          simp [movePosition, hd, hl]
          intro hc
          exact absurd hr hc
        rw [hp] at h
        simp only [if_neg hl]
        exact moveToRightOfPosition_zero _ _ _ _ _ (by omega)
    · have hp : movePosition toNode direction = toNode.lft := by
        simp [movePosition, hd]
      rw [hp] at h
      rw [if_neg hd]
      exact moveToRightOfPosition_zero _ _ _ _ _ (by omega)
  exact ⟨h1 s, by rw [h1 s, h1 s]⟩

/-- Witness for the amended C7: moving `c7B` to the right of `c7A` computes
position 2 and `moveStep = 2 - 3 + 1 = 0`, so the call and its repetition
leave the two-root state untouched. -/
theorem c7_zero_step_move_and_repeat_are_noops_witness :
    movePosition c7A MoveDirectionRight - c7B.lft + 1 = 0
    ∧ (moveTo c7State c7B c7A MoveDirectionRight = c7State
      ∧ moveTo (moveTo c7State c7B c7A MoveDirectionRight) c7B c7A
          MoveDirectionRight = moveTo c7State c7B c7A MoveDirectionRight) :=
  ⟨by decide,
    c7_zero_step_move_and_repeat_are_noops c7State c7B c7A MoveDirectionRight
      (by decide)⟩

/-- C8 counterexample: the claim asserts that `Create` uses the parent's
current stored right bound and depth.  The store holds the parent row with
right bound 2 and depth 0, the caller record says right bound 10 and
depth 5, and the created node is written at (10, 11) with depth 6 — the
record values prevail, not the stored (2, 3, depth 1). -/
theorem c8_create_uses_stale_record :
    c8Store.map (fun n => (n.id, n.rgt, n.depth)) = [(1, 2, 0)]
    ∧ (c8Stale.id, c8Stale.rgt, c8Stale.depth) = (1, 10, 5)
    ∧ (create c8Store c8Src (some c8Stale)).map
        (fun n => (n.id, n.lft, n.rgt, n.depth))
        = [(1, 1, 2, 0), (7, 10, 11, 6)]
    ∧ ((10 : Int), (11 : Int), (6 : Int)) ≠ ((2 : Int), 3, 1) := by
  refine ⟨by decide, by decide, by decide, by decide⟩

/-- C8 amended: the coordinates used to compute positions are taken from the
caller-supplied records parsed at the start of the operation, not re-read
from storage: `Create` with a parent writes the new node at
(record.right, record.right + 1, record.depth + 1) for every state,
regardless of what the store holds for that parent, and `Move` derives its
destination position, depth change and new parent id from the caller's
records alone — so when the caller's snapshot is stale, the snapshot
prevails. -/
theorem c8_record_coordinates_prevail :
    (∀ (s : List NodeItem) (src p : NodeItem),
      (create s src (some p)).getLast?
        = some { src with lft := p.rgt, rgt := p.rgt + 1, depth := p.depth + 1 })
    ∧ (∀ (s : List NodeItem) (node toNode : NodeItem) (direction : Int),
      moveTo s node toNode direction
        = moveToRightOfPosition node (movePosition toNode direction)
            (moveDepthChange node toNode direction)
            (moveNewParent toNode direction) s) := by
  constructor
  · intro s src p
    simp [create, getLast?_append_singleton]
  · intro s node toNode direction
    by_cases hd : direction = MoveDirectionLeft ∨ direction = MoveDirectionRight
    · by_cases hl : direction = MoveDirectionLeft
      · simp [moveTo, movePosition, moveDepthChange, moveNewParent, hd, hl]
      · have hr : direction = MoveDirectionRight := hd.resolve_left hl
        simp [moveTo, movePosition, moveDepthChange, moveNewParent, hd, hl, hr]
    · simp [moveTo, movePosition, moveDepthChange, moveNewParent, hd]

/-- C4: `Create` without a parent appends the new node with left bound one
greater than the current maximum right bound in the record's scope (0 when
the scope is empty, so left becomes 1), right = left + 1 and depth 0;
`Create` with a parent record first adds 2 to the right bound of every
same-scope node with `right >= parent.right`, adds 2 to the left bound of
every same-scope node with `left > parent.right`, adds 1 to the children
count of the row with the parent's id, and appends the new node at
(parent.right, parent.right + 1) with depth parent.depth + 1. -/
theorem c4_create_semantics :
    (∀ (s : List NodeItem) (src : NodeItem),
      create s src none
        = s ++ [{ src with lft := (lastMaxRgt s src.scope).getD 0 + 1,
                           rgt := (lastMaxRgt s src.scope).getD 0 + 1 + 1,
                           depth := 0 }])
    ∧ (∀ (s : List NodeItem) (src p : NodeItem),
      create s src (some p)
        = (s.map (fun n =>
            { n with
              rgt := if n.scope = src.scope ∧ p.rgt ≤ n.rgt then n.rgt + 2
                else n.rgt,
              lft := if n.scope = src.scope ∧ p.rgt < n.lft then n.lft + 2
                else n.lft,
              childrenCount := if n.id = p.id then n.childrenCount + 1
                else n.childrenCount }))
          ++ [{ src with lft := p.rgt, rgt := p.rgt + 1, depth := p.depth + 1 }]) := by
  constructor
  · intro s src
    rcases h : lastMaxRgt s src.scope with _ | m <;> simp [create, h]
  · intro s src p
    simp only [create, List.map_map]
    congr 1
    apply List.map_congr_left
    intro n _
    simp only [Function.comp_apply]
    rcases n with ⟨i, pid, d, r, lf, c, sc⟩
    by_cases hsc : sc = src.scope <;>
      by_cases hr : p.rgt ≤ r <;>
        by_cases hl : p.rgt < lf <;>
          by_cases hid : i = p.id <;>
            simp [hsc, hr, hl, hid]

/-- C2: case analysis of the relocation.  With `width = right - left + 1` of
the moving record and `moveStep = position - left + 1`: a zero `moveStep`
returns the state untouched (no range shift, no reparent, no count resync);
a negative `moveStep` shifts every bound lying in
`[position + 1, left - 1]` up by `width` and adds `moveStep` to both bounds
of every node of the moving subtree; a positive `moveStep` shifts every
bound lying in `[right + 1, position]` down by `width` and adds
`moveStep - width` to both bounds of every subtree node; in both moving
cases `depthChange` is added to each subtree node's depth.  Stated over the
coordinate projection of every row, for states whose rows all satisfy
`left < right` and carry distinct ids. -/
theorem c2_relocation_cases (s : List NodeItem) (target : NodeItem)
    (position depthChange : Int) (np : Option Int)
    (hlr : ∀ n ∈ s, n.lft < n.rgt)
    (hids : (s.map (fun n => n.id)).Nodup) :
    (position - target.lft + 1 = 0 →
      moveToRightOfPosition target position depthChange np s = s)
    ∧ (position - target.lft + 1 < 0 →
      (moveToRightOfPosition target position depthChange np s).map nodeCoords
        = s.map (fun n =>
          if target.lft ≤ n.lft ∧ n.rgt ≤ target.rgt then
            (n.lft + (position - target.lft + 1),
             n.rgt + (position - target.lft + 1),
             n.depth + depthChange)
          else
            ((if position + 1 ≤ n.lft ∧ n.lft ≤ target.lft - 1 then
                n.lft + (target.rgt - target.lft + 1) else n.lft),
             (if position + 1 ≤ n.rgt ∧ n.rgt ≤ target.lft - 1 then
                n.rgt + (target.rgt - target.lft + 1) else n.rgt),
             n.depth)))
    ∧ (0 < position - target.lft + 1 →
      (moveToRightOfPosition target position depthChange np s).map nodeCoords
        = s.map (fun n =>
          if target.lft ≤ n.lft ∧ n.rgt ≤ target.rgt then
            (n.lft + (position - target.lft + 1 - (target.rgt - target.lft + 1)),
             n.rgt + (position - target.lft + 1 - (target.rgt - target.lft + 1)),
             n.depth + depthChange)
          else
            ((if target.rgt + 1 ≤ n.lft ∧ n.lft ≤ position then
                n.lft + -(target.rgt - target.lft + 1) else n.lft),
             (if target.rgt + 1 ≤ n.rgt ∧ n.rgt ≤ position then
                n.rgt + -(target.rgt - target.lft + 1) else n.rgt),
             n.depth))) := by
  refine ⟨fun h0 => moveToRightOfPosition_zero _ _ _ _ _ h0, ?_, ?_⟩
  · intro hms
    simp only [moveToRightOfPosition]
    rw [if_pos (by omega : position - target.lft + 1 < 0)]
    rw [nodeCoords_sync, nodeCoords_moveTarget]
    simp only [moveAffected, List.map_map]
    apply List.map_congr_left
    intro n hn
    simp only [Function.comp_apply]
    have hlr' := hlr n hn
    rw [moveAffectedNode_id]
    by_cases hP : target.lft ≤ n.lft ∧ n.rgt ≤ target.rgt
    · have hc := (mem_targetIds_iff s target hids n hn).2 hP
      have haff : moveAffectedNode (position + 1) (target.lft - 1)
          (target.rgt - target.lft + 1) n = n := by
        unfold moveAffectedNode
        rw [if_neg (by omega)]
      rw [haff, if_pos hc, if_pos hP]
    · have hc : ¬((s.filter (fun m =>
          decide (target.lft ≤ m.lft ∧ m.rgt ≤ target.rgt))).map
            (fun m => m.id)).contains n.id = true :=
        fun hcc => hP ((mem_targetIds_iff s target hids n hn).1 hcc)
      rw [if_neg hc, if_neg hP,
        moveAffectedNode_eq_rangeShifter _ _ _ _ (le_of_lt hlr')]
      rfl
  · intro hms
    simp only [moveToRightOfPosition]
    rw [if_neg (by omega : ¬ position - target.lft + 1 < 0),
      if_pos (by omega : position - target.lft + 1 > 0)]
    rw [nodeCoords_sync, nodeCoords_moveTarget]
    simp only [moveAffected, List.map_map]
    apply List.map_congr_left
    intro n hn
    simp only [Function.comp_apply]
    have hlr' := hlr n hn
    rw [moveAffectedNode_id]
    by_cases hP : target.lft ≤ n.lft ∧ n.rgt ≤ target.rgt
    · have hc := (mem_targetIds_iff s target hids n hn).2 hP
      have haff : moveAffectedNode (target.rgt + 1) position
          (-(target.rgt - target.lft + 1)) n = n := by
        unfold moveAffectedNode
        rw [if_neg (by omega)]
      rw [haff, if_pos hc, if_pos hP]
    · have hc : ¬((s.filter (fun m =>
          decide (target.lft ≤ m.lft ∧ m.rgt ≤ target.rgt))).map
            (fun m => m.id)).contains n.id = true :=
        fun hcc => hP ((mem_targetIds_iff s target hids n hn).1 hcc)
      rw [if_neg hc, if_neg hP,
        moveAffectedNode_eq_rangeShifter _ _ _ _ (le_of_lt hlr')]
      rfl

/-- Witness for C2: relocating the root (3,4) to position 0 (`moveStep =
-2`) in a two-root state shifts the window [1,2] up by 2 and the moving
subtree down by 2. -/
theorem c2_relocation_cases_witness :
    (∀ n ∈ w2State, n.lft < n.rgt)
    ∧ (w2State.map (fun n => n.id)).Nodup
    ∧ (0 - w2B.lft + 1 < 0 →
      (moveToRightOfPosition w2B 0 0 none w2State).map nodeCoords
        = w2State.map (fun n =>
          if w2B.lft ≤ n.lft ∧ n.rgt ≤ w2B.rgt then
            (n.lft + (0 - w2B.lft + 1), n.rgt + (0 - w2B.lft + 1),
             n.depth + 0)
          else
            ((if 0 + 1 ≤ n.lft ∧ n.lft ≤ w2B.lft - 1 then
                n.lft + (w2B.rgt - w2B.lft + 1) else n.lft),
             (if 0 + 1 ≤ n.rgt ∧ n.rgt ≤ w2B.lft - 1 then
                n.rgt + (w2B.rgt - w2B.lft + 1) else n.rgt),
             n.depth))) :=
  ⟨by decide, by decide,
    (c2_relocation_cases w2State w2B 0 0 none (by decide) (by decide)).2.1⟩

/-- C9: a record that cannot be resolved (`stmt.Parse` failure, modelled as
`none`) makes `Create` and `MoveTo` return the mapping error immediately
with zero store interactions, for every state, direction and other
argument. -/
theorem c9_mapping_error_no_store_interaction :
    ∀ (s : List NodeItem) (t : Option NodeItem) (n : NodeItem)
      (p : Option (Option NodeItem)) (direction : Int),
    moveToE s none t direction = (Except.error (), 0)
    ∧ moveToE s (some n) none direction = (Except.error (), 0)
    ∧ createE s none p = (Except.error (), 0)
    ∧ createE s (some n) (some none) = (Except.error (), 0) := by
  intro s t n p direction
  exact ⟨rfl, rfl, rfl, rfl⟩

/-- C10: `Move` performs no validation that the destination lies outside the
moving subtree: whenever the reference record's interval is strictly
contained in the node record's interval, the operation still proceeds and
returns success. -/
theorem c10_no_subtree_validation (s : List NodeItem)
    (node toNode : NodeItem) (direction : Int)
    (h1 : node.lft < toNode.lft) (h2 : toNode.rgt < node.rgt) :
    (moveToE s (some node) (some toNode) direction).1
      = Except.ok (moveTo s node toNode direction) := rfl

/-- Witness for C10: moving the scope-2 root (1,4) inside its own child
(2,3) is accepted and performed. -/
theorem c10_no_subtree_validation_witness :
    c1R.lft < c1C.lft ∧ c1C.rgt < c1R.rgt
    ∧ (moveToE c1State (some c1R) (some c1C) MoveDirectionInner).1
        = Except.ok (moveTo c1State c1R c1C MoveDirectionInner) :=
  ⟨by decide, by decide,
    c10_no_subtree_validation c1State c1R c1C MoveDirectionInner
      (by decide) (by decide)⟩

end NestedSet
